import Mathlib

/-!
Verification of the speed-racer-rl training engine.

Shallow embedding of the C++ sources (`src/replay_buffer.h`, `src/dqn.h`,
`src/racing_trainer.cpp`) over exact rational arithmetic: `float`/`double`
values become `ℚ`, `std::vector` becomes `List`, and the stateful pieces of
the training orchestrator become explicit state-passing step functions.
Each definition cites the source lines it embeds.
-/

/-! ## Replay buffer (src/replay_buffer.h) -/

/-- `Experience` struct, replay_buffer.h lines 9-19: one stored transition. -/
structure Experience where
  state : List ℚ
  action : ℤ
  reward : ℚ
  next_state : List ℚ
  done : Bool
deriving Repr, DecidableEq, Inhabited

/-- `ReplayBuffer` class state, replay_buffer.h lines 22-80: a capacity fixed
at construction and a vector of experiences. -/
structure ReplayBuffer where
  capacity : ℕ
  buffer : List Experience
deriving Repr, DecidableEq

/-- `ReplayBuffer::add`, replay_buffer.h lines 29-35: if the buffer is at
capacity (`buffer_.size() >= capacity_`), erase the front element
(`buffer_.erase(buffer_.begin())`), then append the new experience at the
back (`emplace_back`). -/
def ReplayBuffer.add (rb : ReplayBuffer) (e : Experience) : ReplayBuffer :=
  let b := if rb.buffer.length ≥ rb.capacity then rb.buffer.tail else rb.buffer
  { rb with buffer := b ++ [e] }

/-- Output vectors filled by `ReplayBuffer::sample`, replay_buffer.h lines
38-72: five parallel vectors, cleared then filled per drawn index. -/
structure SampleOut where
  states : List (List ℚ)
  actions : List ℤ
  rewards : List ℚ
  next_states : List (List ℚ)
  dones : List Bool
deriving Repr, DecidableEq

/-- `ReplayBuffer::sample`, replay_buffer.h lines 38-72.  The uniform random
draws `dis(gen)` (each in `[0, buffer_.size()-1]`) are passed in as the index
list `idxs`; for each index the five fields of `buffer_[idx]` are pushed onto
the five output vectors.  The method only reads `buffer_`, so the buffer
state is returned unchanged alongside the outputs. -/
def ReplayBuffer.sample (rb : ReplayBuffer) (idxs : List ℕ) :
    SampleOut × ReplayBuffer :=
  ({ states := idxs.map fun i => (rb.buffer.getD i default).state
     actions := idxs.map fun i => (rb.buffer.getD i default).action
     rewards := idxs.map fun i => (rb.buffer.getD i default).reward
     next_states := idxs.map fun i => (rb.buffer.getD i default).next_state
     dones := idxs.map fun i => (rb.buffer.getD i default).done }, rb)

/-! ## Vehicle speed update (src/racing_trainer.cpp)

The per-step speed pipeline is written out twice in the source with
identical text: once in the training loop (racing_trainer.cpp lines
570-616) and once in `EvaluateGreedy` (lines 274-319).  It is embedded once
below. -/

/-- `MAX_SPEED` constant, racing_trainer.cpp lines 195 and 439. -/
def MAX_SPEED : ℚ := 300

/-- `ACCELERATION` constant, racing_trainer.cpp lines 196 and 440. -/
def ACCELERATION : ℚ := 150

/-- `FRICTION` constant, racing_trainer.cpp lines 197 and 441. -/
def FRICTION : ℚ := 50

/-- Fixed timestep `DT = 1/60`, racing_trainer.cpp line 444. -/
def DT : ℚ := 1 / 60

/-- Friction decay, racing_trainer.cpp lines 572-581: when no acceleration
input is applied the friction is scaled by the surface multiplier; the decay
saturates at zero (speed may not cross zero due to friction alone). -/
def applyFriction (accelerationInput surfaceFriction speed : ℚ) : ℚ :=
  let frictionToApply :=
    if accelerationInput = 0 then FRICTION * surfaceFriction else FRICTION
  if speed > 0 then
    let s := speed - frictionToApply * DT
    if s < 0 then 0 else s
  else if speed < 0 then
    let s := speed + frictionToApply * DT
    if s > 0 then 0 else s
  else speed

/-- Surface-dependent speed clamp, racing_trainer.cpp lines 583-587: the
maximum is halved on high-friction surfaces, and reverse speed is clamped to
half the surface maximum. -/
def clampSpeedToSurface (surfaceFriction speed : ℚ) : ℚ :=
  let maxSpeedOnSurface :=
    if surfaceFriction > 2 then MAX_SPEED * (1 / 2) else MAX_SPEED
  let s1 := if speed > maxSpeedOnSurface then maxSpeedOnSurface else speed
  if s1 < -maxSpeedOnSurface * (1 / 2) then -maxSpeedOnSurface * (1 / 2) else s1

/-- Wall-bounce damping `speed *= -0.3f`, racing_trainer.cpp lines 610 and
615 (and lines 313, 318 in `EvaluateGreedy`). -/
def wallBounce (speed : ℚ) : ℚ := speed * (-3 / 10)

/-- One full speed update of a simulation step, racing_trainer.cpp lines
570-616: integrate acceleration (`speed += accelerationInput * ACCELERATION
* DT`), apply friction decay, clamp to the surface maximum, then apply the
wall bounce when the step was rejected by the collision policy. -/
def speedStep (speed0 accelerationInput surfaceFriction : ℚ)
    (hitWall : Bool) : ℚ :=
  let speed1 := speed0 + accelerationInput * ACCELERATION * DT
  let speed2 := applyFriction accelerationInput surfaceFriction speed1
  let speed3 := clampSpeedToSurface surfaceFriction speed2
  if hitWall then wallBounce speed3 else speed3

/-! ## Checkpoint / lap state machine (src/racing_trainer.cpp)

The checkpoint bookkeeping of a simulation step is written out twice with
the same structure: in the training loop (racing_trainer.cpp lines 641-680,
with reward bonuses interleaved) and in `EvaluateGreedy` (lines 321-353).
Both are embedded by `lapStep`; the crossing test
`cp.CheckCrossing(prevPosition, position)` is floating-point geometry on the
trajectory and enters the model as the Boolean input `crossing`. -/

/-- `totalLaps`, racing_trainer.cpp lines 233 and 489. -/
def totalLaps : ℤ := 3

/-- The lap-relevant episode state: the `crossed` flag of each checkpoint
(index 0 is the start/finish line), `currentLap`, `nextCheckpoint` and
`raceFinished` (racing_trainer.cpp lines 480-491). -/
structure LapState where
  crossed : List Bool
  currentLap : ℤ
  nextCheckpoint : ℕ
  raceFinished : Bool
deriving Repr, DecidableEq

/-- Episode-start lap state, racing_trainer.cpp lines 480-491: all `crossed`
flags false, `currentLap = -1`, `nextCheckpoint = 0`, race not finished. -/
def initLapState (n : ℕ) : LapState :=
  { crossed := List.replicate n false
    currentLap := -1
    nextCheckpoint := 0
    raceFinished := false }

/-- The `allCrossed` loop, racing_trainer.cpp lines 645-648: every
checkpoint with index `1 .. size-1` has its `crossed` flag set. -/
def allOthersCrossed (crossed : List Bool) : Bool :=
  crossed.tail.all fun b => b

/-- One step of the checkpoint/lap state machine, racing_trainer.cpp lines
641-680 (identically lines 321-353 in `EvaluateGreedy`).  When the line of
`checkpoints[nextCheckpoint]` is crossed: at the start/finish line with a
lap in progress and all other checkpoints crossed, flag 0 is set, the lap
count incremented, every flag reset and `nextCheckpoint` set to 1 (race
finished at `totalLaps`); at the start/finish line otherwise the flag is
cleared (first crossing also starts lap 1); at any other checkpoint the
flag is set and `nextCheckpoint` advances modulo the checkpoint count. -/
def lapStep (s : LapState) (crossing : Bool) : LapState :=
  if crossing then
    if s.nextCheckpoint = 0 then
      if s.currentLap > 0 then
        if allOthersCrossed s.crossed then
          { crossed := List.replicate s.crossed.length false
            currentLap := s.currentLap + 1
            nextCheckpoint := 1
            raceFinished :=
              if s.currentLap + 1 ≥ totalLaps then true else s.raceFinished }
        else
          { s with crossed := s.crossed.set 0 false }
      else
        { s with crossed := s.crossed.set 0 false
                 currentLap := 1
                 nextCheckpoint := 1 }
    else
      if s.currentLap > 0 ∧ s.nextCheckpoint ≠ 0 then
        { s with crossed := s.crossed.set s.nextCheckpoint true
                 nextCheckpoint := (s.nextCheckpoint + 1) % s.crossed.length }
      else
        { s with crossed := s.crossed.set s.nextCheckpoint false }
  else s

/-- Whether a step executes the `cp.crossed = true` assignment for
checkpoint 0 (racing_trainer.cpp line 651 / line 330): exactly in the
branch `crossing ∧ nextCheckpoint = 0 ∧ currentLap > 0 ∧ allCrossed`. -/
def lapStepSetsCp0 (s : LapState) (crossing : Bool) : Bool :=
  crossing && decide (s.nextCheckpoint = 0) && decide (s.currentLap > 0) &&
    allOthersCrossed s.crossed

/-! ## Milestone evaluation and best-model records (src/racing_trainer.cpp) -/

/-- `EVAL_EPISODES`, racing_trainer.cpp line 472. -/
def EVAL_EPISODES : ℤ := 20

/-- `FINISH_RATE_MIN_IMPROVEMENT`, racing_trainer.cpp line 473. -/
def FINISH_RATE_MIN_IMPROVEMENT : ℤ := 2

/-- `SCORE_MIN_IMPROVEMENT`, racing_trainer.cpp line 474. -/
def SCORE_MIN_IMPROVEMENT : ℚ := 500

/-- The fields of `EvalResult` (racing_trainer.cpp lines 167-182) consumed
by the best-model acceptance rules. -/
structure EvalMetrics where
  finishes : ℤ
  finish_rate : ℚ
  avg_steps_finish : ℚ
  avg_score : ℚ
deriving Repr, DecidableEq

/-- The three best-model record variables, racing_trainer.cpp lines
468-470. -/
structure BestRecords where
  best_finish_rate : ℚ
  best_time_avg_steps_finish : ℚ
  best_score : ℚ
deriving Repr, DecidableEq

/-- Initial record values, racing_trainer.cpp lines 468-470:
`best_finish_rate = -1.0`, `best_time_avg_steps_finish = 1e18`,
`best_score = -1e18`. -/
def initBestRecords : BestRecords :=
  { best_finish_rate := -1
    best_time_avg_steps_finish := 10 ^ 18
    best_score := -(10 ^ 18) }

/-- `std::round` (half away from zero), used at racing_trainer.cpp line
812. -/
def roundHalfAwayFromZero (q : ℚ) : ℤ :=
  if q ≥ 0 then ⌊q + 1 / 2⌋ else ⌈q - 1 / 2⌉

/-- Best-finish-rate acceptance, racing_trainer.cpp lines 811-819: accept
when no prior record exists (`best_finish_rate < 0`), or the finish count
improves by at least the margin, or the finish rate and finish count both
strictly improve. -/
def saveFinishRateDecision (r : BestRecords) (e : EvalMetrics) : Bool :=
  let best_finishes_int :=
    roundHalfAwayFromZero (r.best_finish_rate * (EVAL_EPISODES : ℚ))
  if r.best_finish_rate < 0 then true
  else if e.finishes ≥ best_finishes_int + FINISH_RATE_MIN_IMPROVEMENT then true
  else if e.finish_rate > r.best_finish_rate ∧ e.finishes > best_finishes_int
    then true
  else false

/-- Best-time acceptance, racing_trainer.cpp lines 828-835: among
evaluations with at least one finish, accept when no prior finishing record
exists (`best_time >= 1e17`) or the mean steps to finish improves by more
than 50. -/
def saveTimeDecision (best_time : ℚ) (e : EvalMetrics) : Bool :=
  if e.finishes > 0 then
    if best_time ≥ 10 ^ 17 then true
    else if e.avg_steps_finish + 50 < best_time then true
    else false
  else false

/-- Best-score acceptance, racing_trainer.cpp lines 844-851: accept when no
prior record exists (`best_score <= -1e17`), or the score improves by more
than `SCORE_MIN_IMPROVEMENT`, or the score improves at all while the finish
rate strictly exceeds the *current value* of the `best_finish_rate`
variable (which the finish-rate block above may already have overwritten
this same milestone). -/
def saveScoreDecision (best_score best_finish_rate : ℚ) (e : EvalMetrics) :
    Bool :=
  if best_score ≤ -(10 ^ 17) then true
  else if e.avg_score > best_score + SCORE_MIN_IMPROVEMENT then true
  else if e.avg_score > best_score ∧ e.finish_rate > best_finish_rate then true
  else false

/-- Outcome of one milestone's record updates: the new record variables and
which of the three snapshots were saved. -/
structure MilestoneOutcome where
  records : BestRecords
  saved_finish_rate : Bool
  saved_time : Bool
  saved_score : Bool
deriving Repr, DecidableEq

/-- The milestone record-update block, racing_trainer.cpp lines 811-858,
with the three acceptance rules evaluated in source order against the
record variables as mutated so far. -/
def milestoneUpdate (r : BestRecords) (e : EvalMetrics) : MilestoneOutcome :=
  let save_finish_rate := saveFinishRateDecision r e
  let r1 := if save_finish_rate then { r with best_finish_rate := e.finish_rate }
            else r
  let save_time := saveTimeDecision r1.best_time_avg_steps_finish e
  let r2 := if save_time
            then { r1 with best_time_avg_steps_finish := e.avg_steps_finish }
            else r1
  let save_score := saveScoreDecision r2.best_score r2.best_finish_rate e
  let r3 := if save_score then { r2 with best_score := e.avg_score } else r2
  { records := r3
    saved_finish_rate := save_finish_rate
    saved_time := save_time
    saved_score := save_score }

/-- Modelled from the spec: the claim's best-score acceptance rule, under
which the third disjunct compares the new finish rate against the finish
rate *associated with the best-score record* and the decision is
independent of the same-milestone best-finish-rate update.  Kept separate
from `saveScoreDecision` (the code's rule) for comparison. -/
def claimedBestScoreAccept (priorExists : Bool) (storedBestScore : ℚ)
    (scoreRecordFinishRate : ℚ) (e : EvalMetrics) : Bool :=
  if priorExists = false then true
  else if e.avg_score > storedBestScore + SCORE_MIN_IMPROVEMENT then true
  else if e.avg_score > storedBestScore ∧
      e.finish_rate > scoreRecordFinishRate then true
  else false

/-- A concrete first-milestone evaluation: 10/20 finishes, average score
100, average steps-to-finish 1000. -/
def evalMilestoneA : EvalMetrics :=
  { finishes := 10, finish_rate := 1 / 2, avg_steps_finish := 1000
    avg_score := 100 }

/-- A concrete second-milestone evaluation: 18/20 finishes, average score
300, average steps-to-finish 990. -/
def evalMilestoneB : EvalMetrics :=
  { finishes := 18, finish_rate := 9 / 10, avg_steps_finish := 990
    avg_score := 300 }

/-! ## Learning-rate schedule (src/racing_trainer.cpp, src/dqn.h)

`DQN::set_learning_rate` (dqn.h lines 61-67) overwrites `current_lr_` and
the Adam option of every parameter group with the given value; the
orchestrator's schedule state is embedded below. -/

/-- The orchestrator state feeding the learning-rate schedule: the current
learning rate held by the learner, the two one-way drop flags
(racing_trainer.cpp lines 476-477) and the per-episode finish history
(`stats.episode_finishes`). -/
structure LRState where
  lr : ℚ
  lr_dropped_once : Bool
  lr_dropped_twice : Bool
  episode_finishes : List Bool
deriving Repr, DecidableEq

/-- Schedule state at the start of the run: the learner is constructed with
`LEARNING_RATE = 1e-3` (racing_trainer.cpp lines 400, 450) and the resume
block immediately overrides it with `set_learning_rate(1e-4)` (line 455);
both drop flags start false and no episode has finished yet. -/
def initLRState : LRState :=
  { lr := 1 / 10000
    lr_dropped_once := false
    lr_dropped_twice := false
    episode_finishes := [] }

/-- End-of-episode learning-rate schedule, racing_trainer.cpp lines
723-743: the episode's finish flag is appended to the history (line 723);
on the first race finish ever, LR is set to `3e-4` and the first flag
latches (lines 725-729); when the finish rate over the last 20 recorded
episodes reaches 0.50, LR is set to `1e-4` and the second flag latches
(lines 731-743). -/
def lrEpisodeEnd (s : LRState) (raceFinished : Bool) : LRState :=
  let fins := s.episode_finishes ++ [raceFinished]
  let s1 : LRState :=
    if raceFinished ∧ s.lr_dropped_once = false then
      { lr := 3 / 10000, lr_dropped_once := true
        lr_dropped_twice := s.lr_dropped_twice, episode_finishes := fins }
    else
      { s with episode_finishes := fins }
  if s1.lr_dropped_twice = false ∧ fins.length ≥ 20 ∧
      ((fins.drop (fins.length - 20)).count true : ℚ) / 20 ≥ 1 / 2 then
    { s1 with lr := 1 / 10000, lr_dropped_twice := true }
  else s1

/-! ## Double-DQN learner (src/dqn.h) -/

/-- Maximum of a Q-value row, the value side of `torch::max` over dim 1 /
`std::max_element`. -/
def listMax : List ℚ → ℚ
  | [] => 0
  | [a] => a
  | a :: b :: rest => max a (listMax (b :: rest))

/-- Index of the first maximal entry of a Q-value row: the index returned
by `next_q_policy.max(1, true)` (dqn.h line 174) and by `std::max_element`
in the greedy action choice (racing_trainer.cpp lines 247, 544). -/
def argmaxIdx : List ℚ → ℕ
  | [] => 0
  | [_] => 0
  | a :: b :: rest =>
      if a < listMax (b :: rest) then argmaxIdx (b :: rest) + 1 else 0

/-- `q.gather(1, actions)` on one batch row: the Q-value at the chosen
action index. -/
def gatherQ (q : List ℚ) (a : ℕ) : ℚ := q.getD a 0

/-- Double-DQN next-state value, dqn.h lines 167-179: the next action is
the arg-max of the *policy* network's row at the next observation (line
174); the value used is the *target* network's entry at that action (lines
177-178). -/
def doubleDQNnextQ (policyNet targetNet : List ℚ → List ℚ)
    (nextObs : List ℚ) : ℚ :=
  gatherQ (targetNet nextObs) (argmaxIdx (policyNet nextObs))

/-- `torch::mse_loss` with its default mean reduction over the batch. -/
def mseLossFn (B : ℕ) (pred target : Fin B → ℚ) : ℚ :=
  (∑ i, (pred i - target i) ^ 2) / (B : ℚ)

/-- The loss computed by `DQN::train`, dqn.h lines 164-185: current Q from
the policy network gathered at the taken actions (line 165); Double-DQN
bootstrap target `reward + gamma * next_q * (1 - done)` (lines 167-181);
mean-squared error between the two (line 185).  The two networks enter as
black-box forward functions from an observation to a Q-value row. -/
def dqnTrainLoss (B : ℕ) (gamma : ℚ) (policyNet targetNet : List ℚ → List ℚ)
    (states : Fin B → List ℚ) (actions : Fin B → ℕ) (rewards : Fin B → ℚ)
    (next_states : Fin B → List ℚ) (dones : Fin B → Bool) : ℚ :=
  mseLossFn B
    (fun i => gatherQ (policyNet (states i)) (actions i))
    (fun i => rewards i +
      gamma * doubleDQNnextQ policyNet targetNet (next_states i) *
        (1 - if dones i then 1 else 0))

/-- The `tau` used by `DQN::train`: `soft_update_target(0.005f)`, dqn.h
lines 73 and 193. -/
def TAU : ℚ := 5 / 1000

/-- `DQN::soft_update_target`, dqn.h lines 73-83: every target parameter is
overwritten with `tau * policy + (1 - tau) * target`, elementwise over the
identically keyed named parameters of the two networks. -/
def soft_update_target (tau : ℚ) (policyParams targetParams : List ℚ) :
    List ℚ :=
  List.zipWith (fun p t => tau * p + (1 - tau) * t) policyParams targetParams

/-- The flattened parameter vectors of the two networks. -/
structure DQNParamState where
  policyParams : List ℚ
  targetParams : List ℚ
deriving Repr, DecidableEq

/-- Parameter-level effect of one `DQN::train` call, dqn.h lines 187-193:
the gradient step (`zero_grad`, `backward`, clipping, `optimizer_->step()`)
acts on the policy parameters only — the Adam optimizer is constructed over
`policy_net_->parameters()` alone (dqn.h lines 54-57) — and is abstracted
as an arbitrary `optimizerStep` function; afterwards
`soft_update_target(0.005f)` blends the target toward the new policy. -/
def dqnTrainParamUpdate (optimizerStep : List ℚ → List ℚ)
    (s : DQNParamState) : DQNParamState :=
  let newPolicy := optimizerStep s.policyParams
  { policyParams := newPolicy
    targetParams := soft_update_target TAU newPolicy s.targetParams }

/-! ## Policy-network persistence (src/dqn.h) -/

/-- Dot product of a weight row with the layer input. -/
def dotQ (a b : List ℚ) : ℚ := (List.zipWith (fun x y => x * y) a b).sum

/-- One `torch::nn::Linear` layer: weight rows and biases. -/
structure LinearLayer where
  weight : List (List ℚ)
  bias : List ℚ
deriving Repr, DecidableEq

/-- A linear layer's forward pass: one output per (row, bias) pair. -/
def LinearLayer.forward (l : LinearLayer) (x : List ℚ) : List ℚ :=
  List.zipWith (fun row b => dotQ row x + b) l.weight l.bias

/-- `torch::relu` elementwise. -/
def reluVec (x : List ℚ) : List ℚ := x.map fun v => max v 0

/-- `DQNNetImpl`, dqn.h lines 12-27: a three-layer MLP with hidden width
64. -/
structure DQNNet where
  fc1 : LinearLayer
  fc2 : LinearLayer
  fc3 : LinearLayer
deriving Repr, DecidableEq

/-- `DQNNetImpl::forward`, dqn.h lines 21-26:
`fc3(relu(fc2(relu(fc1(x)))))`. -/
def DQNNet.forward (n : DQNNet) (x : List ℚ) : List ℚ :=
  n.fc3.forward (reluVec (n.fc2.forward (reluVec (n.fc1.forward x))))

/-- Shape of a linear layer: `outDim` rows of `inDim` entries and `outDim`
biases. -/
def LinearLayer.hasShape (l : LinearLayer) (inDim outDim : ℕ) : Prop :=
  l.weight.length = outDim ∧ (∀ r ∈ l.weight, r.length = inDim) ∧
    l.bias.length = outDim

/-- A network shaped as `DQNNetImpl(state_size, action_size)`, dqn.h lines
15-19: `state_size → 64 → 64 → action_size`. -/
def DQNNet.wellFormed (S A : ℕ) (n : DQNNet) : Prop :=
  n.fc1.hasShape S 64 ∧ n.fc2.hasShape 64 64 ∧ n.fc3.hasShape 64 A

/-- Serialized parameter stream of one layer, weight rows then bias, in
registration order. -/
def LinearLayer.flatten (l : LinearLayer) : List ℚ := l.weight.flatten ++ l.bias

/-- Serialized parameter stream of the whole policy network written by
`torch::save(policy_net_, path)` (dqn.h line 202): fc1, fc2, fc3 in
registration order (dqn.h lines 16-18). -/
def DQNNet.flatten (n : DQNNet) : List ℚ :=
  LinearLayer.flatten n.fc1 ++
    (LinearLayer.flatten n.fc2 ++ LinearLayer.flatten n.fc3)

/-- Read `outDim` rows of `inDim` entries each from a parameter stream. -/
def splitRows (inDim : ℕ) : ℕ → List ℚ → List (List ℚ)
  | 0, _ => []
  | n + 1, data => data.take inDim :: splitRows inDim n (data.drop inDim)

/-- Rebuild one linear layer from the head of a parameter stream. -/
def unflattenLinear (inDim outDim : ℕ) (data : List ℚ) : LinearLayer :=
  { weight := splitRows inDim outDim data
    bias := (data.drop (outDim * inDim)).take outDim }

/-- Stream length of one layer's parameters. -/
def layerSize (inDim outDim : ℕ) : ℕ := outDim * inDim + outDim

/-- Rebuild the whole network from a parameter stream: `torch::load` into a
`DQNNet(state_size, action_size)`-shaped module (dqn.h line 207). -/
def unflattenNet (S A : ℕ) (data : List ℚ) : DQNNet :=
  { fc1 := unflattenLinear S 64 data
    fc2 := unflattenLinear 64 64 (data.drop (layerSize S 64))
    fc3 := unflattenLinear 64 A
      ((data.drop (layerSize S 64)).drop (layerSize 64 64)) }

/-- The learner's two networks, dqn.h lines 232-233. -/
structure DQNState where
  policy_net : DQNNet
  target_net : DQNNet
deriving Repr, DecidableEq

/-- `DQN::predict`, dqn.h lines 85-107: a forward pass of the policy
network only. -/
def DQN.predict (d : DQNState) (state : List ℚ) : List ℚ :=
  d.policy_net.forward state

/-- `DQN::save_model`, dqn.h lines 201-204: serializes the policy
network's parameters only. -/
def DQN.save_model (d : DQNState) : List ℚ := d.policy_net.flatten

/-- `DQN::copy_weights`, dqn.h lines 218-226: the value taken by the
target network once every named parameter has been copied over from the
source network. -/
def copy_weights (source : DQNNet) : DQNNet := source

/-- `DQN::load_model`, dqn.h lines 206-210: deserialize the stream into
the policy network, then hard-copy the policy into the target network. -/
def DQN.load_model (S A : ℕ) (d : DQNState) (data : List ℚ) : DQNState :=
  let p := unflattenNet S A data
  { d with policy_net := p, target_net := copy_weights p }

/-- A concrete well-formed network (input and output dimension 1) used as
witness data. -/
def witnessNet : DQNNet :=
  { fc1 := { weight := List.replicate 64 [1], bias := List.replicate 64 0 }
    fc2 := { weight := List.replicate 64 (List.replicate 64 0)
             bias := List.replicate 64 0 }
    fc3 := { weight := [List.replicate 64 0], bias := [2] } }

/-- A concrete learner state built from `witnessNet`. -/
def witnessDQN : DQNState := { policy_net := witnessNet, target_net := witnessNet }

/-! ## Theorems -/

/-- Helper: the clamp of racing_trainer.cpp lines 583-587 lands in
`[-150, 300]` whatever speed it receives. -/
theorem clampSpeedToSurface_mem (surfaceFriction speed : ℚ) :
    -150 ≤ clampSpeedToSurface surfaceFriction speed ∧
      clampSpeedToSurface surfaceFriction speed ≤ 300 := by
  unfold clampSpeedToSurface MAX_SPEED
  dsimp only
  split_ifs <;> constructor <;> linarith

/-- C7: an `add` never grows the buffer past the capacity, and at capacity
the single evicted element is the oldest retained transition; everything
else is kept in insertion order.  (Capacity ≥ 1 mirrors the C++
precondition: `erase(begin())` on an empty vector is undefined.) -/
theorem replay_add_capacity_fifo (rb : ReplayBuffer) (e : Experience)
    (hcap : 1 ≤ rb.capacity) (hlen : rb.buffer.length ≤ rb.capacity) :
    (rb.add e).buffer.length ≤ rb.capacity ∧
    (rb.buffer.length = rb.capacity →
      ∃ oldest rest, rb.buffer = oldest :: rest ∧
        (rb.add e).buffer = rest ++ [e]) ∧
    (rb.buffer.length < rb.capacity → (rb.add e).buffer = rb.buffer ++ [e]) := by
  unfold ReplayBuffer.add
  refine ⟨?_, ?_, ?_⟩
  · by_cases hfull : rb.buffer.length ≥ rb.capacity
    · rw [if_pos hfull, List.length_append, List.length_tail]
      simp only [List.length_cons, List.length_nil]
      omega
    · rw [if_neg hfull, List.length_append]
      simp only [List.length_cons, List.length_nil]
      omega
  · intro hfull
    have hge : rb.buffer.length ≥ rb.capacity := le_of_eq hfull.symm
    obtain ⟨oldest, rest, hb⟩ : ∃ o r, rb.buffer = o :: r := by
      cases hb : rb.buffer with
      | nil => rw [hb] at hfull; simp at hfull; omega
      | cons o r => exact ⟨o, r, rfl⟩
    refine ⟨oldest, rest, hb, ?_⟩
    rw [if_pos hge, hb, List.tail_cons]
  · intro hlt
    have hng : ¬ rb.buffer.length ≥ rb.capacity := by omega
    rw [if_neg hng]

/-- C7 witness at a concrete full buffer of capacity 2. -/
theorem replay_add_capacity_fifo_witness :
    let e1 : Experience := ⟨[1], 0, 1, [2], false⟩
    let e2 : Experience := ⟨[2], 1, 2, [3], false⟩
    let e3 : Experience := ⟨[3], 2, 3, [4], true⟩
    let rb : ReplayBuffer := ⟨2, [e1, e2]⟩
    (rb.add e3).buffer.length ≤ rb.capacity ∧
      ∃ oldest rest, rb.buffer = oldest :: rest ∧ (rb.add e3).buffer = rest ++ [e3] := by
  intro e1 e2 e3 rb
  have h := replay_add_capacity_fifo rb e3 (by decide) (by decide)
  exact ⟨h.1, h.2.1 (by decide)⟩

/-- C9: sampling with any list of in-range draws of length `batch_size` from
a buffer holding at least `batch_size` transitions fills all five output
vectors with exactly `batch_size` entries, every drawn tuple is a transition
currently stored in the buffer, and the buffer itself (contents, order and
size) is returned unchanged. -/
theorem replay_sample_spec (rb : ReplayBuffer) (idxs : List ℕ) (batchSize : ℕ)
    (hbatch : idxs.length = batchSize)
    (_hsize : batchSize ≤ rb.buffer.length)
    (hrange : ∀ i ∈ idxs, i < rb.buffer.length) :
    let out := (rb.sample idxs).1
    out.states.length = batchSize ∧
    out.actions.length = batchSize ∧
    out.rewards.length = batchSize ∧
    out.next_states.length = batchSize ∧
    out.dones.length = batchSize ∧
    (∀ j < batchSize, ∃ exp ∈ rb.buffer,
      out.states.getD j default = exp.state ∧
      out.actions.getD j default = exp.action ∧
      out.rewards.getD j default = exp.reward ∧
      out.next_states.getD j default = exp.next_state ∧
      out.dones.getD j default = exp.done) ∧
    (rb.sample idxs).2 = rb := by
  unfold ReplayBuffer.sample
  refine ⟨by simp [hbatch], by simp [hbatch], by simp [hbatch],
    by simp [hbatch], by simp [hbatch], ?_, rfl⟩
  intro j hj
  have hjlen : j < idxs.length := by omega
  refine ⟨rb.buffer.getD (idxs.get ⟨j, hjlen⟩) default, ?_, ?_, ?_, ?_, ?_, ?_⟩
  · have hmem : idxs.get ⟨j, hjlen⟩ ∈ idxs := idxs.get_mem j hjlen
    have hlt := hrange _ hmem
    rw [List.getD_eq_getElem _ _ hlt]
    exact List.getElem_mem hlt
  all_goals
    simp only [List.getD_eq_getElem?_getD, List.getElem?_map]
    rw [List.getElem?_eq_getElem hjlen]
    simp [List.get_eq_getElem]

/-- C9 witness on a concrete buffer of size 2 with two draws. -/
theorem replay_sample_spec_witness :
    let e1 : Experience := ⟨[1], 0, 1, [2], false⟩
    let e2 : Experience := ⟨[2], 1, 2, [3], true⟩
    let rb : ReplayBuffer := ⟨5, [e1, e2]⟩
    ((rb.sample [1, 0]).1.states.length = 2 ∧ (rb.sample [1, 0]).2 = rb) := by
  intro e1 e2 rb
  have h := replay_sample_spec rb [1, 0] 2 (by decide) (by decide)
    (by intro i hi; fin_cases hi <;> decide)
  exact ⟨h.1, h.2.2.2.2.2.2⟩

/-- C10: after every simulation step of the training loop and of greedy
evaluation, the scalar speed lies in `[-MAX_SPEED/2, MAX_SPEED] = [-150,
300]`: the surface clamp bounds it there and the wall bounce keeps it
there.  The bound holds for every incoming speed, acceleration input and
surface friction. -/
theorem speed_bounded (speed0 accelerationInput surfaceFriction : ℚ)
    (hitWall : Bool) :
    -(MAX_SPEED / 2) ≤ speedStep speed0 accelerationInput surfaceFriction hitWall ∧
      speedStep speed0 accelerationInput surfaceFriction hitWall ≤ MAX_SPEED := by
  have hclamp := clampSpeedToSurface_mem surfaceFriction
    (applyFriction accelerationInput surfaceFriction
      (speed0 + accelerationInput * ACCELERATION * DT))
  unfold speedStep wallBounce MAX_SPEED
  dsimp only
  cases hitWall with
  | false =>
    simp only [Bool.false_eq_true, if_false]
    constructor <;> linarith [hclamp.1, hclamp.2]
  | true =>
    simp only [if_true]
    constructor <;> nlinarith [hclamp.1, hclamp.2]

/-- Helper: the cleared start/finish flag stays cleared when checkpoint 0's
flag is overwritten with `false`. -/
theorem getD_set_zero_false (l : List Bool) :
    (l.set 0 false).getD 0 false = false := by
  cases l <;> rfl

/-- Helper: setting a flag at a nonzero index leaves checkpoint 0's flag
unread and unchanged. -/
theorem getD_set_ne_zero (l : List Bool) (i : ℕ) (b : Bool) (h : i ≠ 0) :
    (l.set i b).getD 0 false = l.getD 0 false := by
  rw [List.getD_eq_getElem?_getD, List.getD_eq_getElem?_getD,
    List.getElem?_set_ne h]

/-- Helper: a freshly reset flag vector has checkpoint 0 cleared. -/
theorem getD_replicate_false (n : ℕ) :
    (List.replicate n false).getD 0 false = false := by
  cases n <;> rfl

/-- Helper: the `allCrossed` loop result means every checkpoint of index
`1 .. size-1` carries a set flag. -/
theorem allOthersCrossed_getD {crossed : List Bool}
    (h : allOthersCrossed crossed = true) :
    ∀ i, 1 ≤ i → i < crossed.length → crossed.getD i false = true := by
  intro i h1 hi
  cases crossed with
  | nil => simp at hi
  | cons c cs =>
    simp only [allOthersCrossed, List.tail_cons] at h
    obtain ⟨j, rfl⟩ : ∃ j, i = j + 1 := ⟨i - 1, by omega⟩
    rw [List.getD_cons_succ]
    have hj : j < cs.length := by
      simp only [List.length_cons] at hi
      omega
    have hmem : cs.getD j false ∈ cs := by
      rw [List.getD_eq_getElem _ _ hj]
      exact List.getElem_mem hj
    exact List.all_eq_true.mp h _ hmem

/-- Helper: every branch of a `lapStep` leaves checkpoint 0's flag cleared,
provided it was cleared before the step. -/
theorem lapStep_preserves_cp0 (s : LapState) (crossing : Bool)
    (h0 : s.crossed.getD 0 false = false) :
    (lapStep s crossing).crossed.getD 0 false = false := by
  unfold lapStep
  by_cases hc : crossing = true
  · rw [if_pos hc]
    by_cases hnc : s.nextCheckpoint = 0
    · rw [if_pos hnc]
      by_cases hlap : s.currentLap > 0
      · rw [if_pos hlap]
        by_cases hall : allOthersCrossed s.crossed = true
        · rw [if_pos hall]
          exact getD_replicate_false _
        · rw [if_neg hall]
          exact getD_set_zero_false _
      · rw [if_neg hlap]
        exact getD_set_zero_false _
    · rw [if_neg hnc]
      by_cases hother : s.currentLap > 0 ∧ s.nextCheckpoint ≠ 0
      · rw [if_pos hother]
        show (s.crossed.set s.nextCheckpoint true).getD 0 false = false
        rw [getD_set_ne_zero _ _ _ hother.2]
        exact h0
      · rw [if_neg hother]
        show (s.crossed.set s.nextCheckpoint false).getD 0 false = false
        rw [getD_set_ne_zero _ _ _ hnc]
        exact h0
  · rw [if_neg hc]
    exact h0

/-- Helper: `currentLap` never decreases across a simulation step. -/
theorem lapStep_currentLap_mono (s : LapState) (crossing : Bool) :
    s.currentLap ≤ (lapStep s crossing).currentLap := by
  unfold lapStep
  split_ifs <;> (try dsimp only) <;> omega

/-- C3: in every episode and at every simulation step, checkpoint 0's
`crossed` flag is assigned `true` only when every other checkpoint's flag
has been set since the previous lap boundary, and that assignment happens
in the same step as the lap-count increment and the reset of all flags;
consequently checkpoint 0 is never left marked crossed after any step of
any episode (started from the episode-reset state). -/
theorem checkpoint0_lap_atomicity :
    (∀ (s : LapState) (crossing : Bool), s.crossed.getD 0 false = false →
      ((lapStep s crossing).crossed.getD 0 false = false ∧
       (lapStepSetsCp0 s crossing = true →
         (∀ i, 1 ≤ i → i < s.crossed.length → s.crossed.getD i false = true) ∧
         (lapStep s crossing).currentLap = s.currentLap + 1 ∧
         (lapStep s crossing).crossed = List.replicate s.crossed.length false))) ∧
    (∀ (n : ℕ) (trace : List Bool),
      (trace.foldl lapStep (initLapState n)).crossed.getD 0 false = false) := by
  constructor
  · intro s crossing h0
    refine ⟨lapStep_preserves_cp0 s crossing h0, ?_⟩
    intro hset
    simp only [lapStepSetsCp0, Bool.and_eq_true, decide_eq_true_eq] at hset
    obtain ⟨⟨⟨hcr, hnc⟩, hlap⟩, hall⟩ := hset
    have e : lapStep s crossing =
        { crossed := List.replicate s.crossed.length false
          currentLap := s.currentLap + 1
          nextCheckpoint := 1
          raceFinished :=
            if s.currentLap + 1 ≥ totalLaps then true else s.raceFinished } := by
      unfold lapStep
      rw [if_pos hcr, if_pos hnc, if_pos hlap, if_pos hall]
    exact ⟨allOthersCrossed_getD hall, by rw [e], by rw [e]⟩
  · intro n trace
    have main : ∀ (tr : List Bool) (s : LapState),
        s.crossed.getD 0 false = false →
        (tr.foldl lapStep s).crossed.getD 0 false = false := by
      intro tr
      induction tr with
      | nil => exact fun s hs => hs
      | cons c cs ih =>
        intro s hs
        exact ih _ (lapStep_preserves_cp0 s c hs)
    exact main trace _ (getD_replicate_false n)

/-- C3 witness: a concrete lap-completing step (all other checkpoints
crossed, start/finish line crossed with a lap in progress). -/
theorem checkpoint0_lap_atomicity_witness :
    (lapStep ⟨[false, true, true], 1, 0, false⟩ true).currentLap = 1 + 1 ∧
      (lapStep ⟨[false, true, true], 1, 0, false⟩ true).crossed =
        List.replicate 3 false := by
  have h := (checkpoint0_lap_atomicity.1 ⟨[false, true, true], 1, 0, false⟩ true
    (by decide)).2 (by decide)
  exact ⟨h.2.1, h.2.2⟩

/-- C4 (amended): the per-episode lap counter recorded into the statistics
log is monotonically non-decreasing within an episode, but it is
initialized to -1 (not 0) at episode start: the first start/finish-line
crossing raises it to 1, and a lap completion increments it. -/
theorem laps_counter_init_and_monotone :
    (∀ n, (initLapState n).currentLap = -1) ∧
    (∀ (s : LapState) (crossing : Bool),
      s.currentLap ≤ (lapStep s crossing).currentLap) ∧
    (∀ (s : LapState) (trace : List Bool),
      s.currentLap ≤ (trace.foldl lapStep s).currentLap) := by
  refine ⟨fun n => rfl, lapStep_currentLap_mono, ?_⟩
  intro s trace
  induction trace generalizing s with
  | nil => exact le_refl _
  | cons c cs ih => exact le_trans (lapStep_currentLap_mono s c) (ih _)

/-- C4 counterexample: an episode in which no checkpoint line is ever
crossed records `laps_completed = -1`, not 0 — the counter is initialized
to -1 at episode start (racing_trainer.cpp line 488), so the claim that it
"is reset to 0 at episode start (it never takes any other initial value)"
fails on the code. -/
theorem laps_counter_init_counterexample :
    ((List.replicate 5 false).foldl lapStep (initLapState 8)).currentLap = -1 ∧
    ((List.replicate 5 false).foldl lapStep (initLapState 8)).currentLap ≠ 0 := by
  constructor <;> decide

/-- Helper: the code's best-score rule unfolded into its disjunction. -/
theorem saveScoreDecision_iff (b f : ℚ) (e : EvalMetrics) :
    saveScoreDecision b f e = true ↔
      (b ≤ -(10 ^ 17) ∨ e.avg_score > b + SCORE_MIN_IMPROVEMENT ∨
        (e.avg_score > b ∧ e.finish_rate > f)) := by
  unfold saveScoreDecision
  split_ifs with h1 h2 h3
  · exact iff_of_true rfl (Or.inl h1)
  · exact iff_of_true rfl (Or.inr (Or.inl h2))
  · exact iff_of_true rfl (Or.inr (Or.inr h3))
  · simp only [false_iff]
    tauto

/-- Helper: the best-score decision taken by a milestone equals the code's
rule applied to the pre-milestone best score and to the best-finish-rate
variable *after* the same milestone's finish-rate update. -/
theorem milestoneUpdate_saved_score_eq (r : BestRecords) (e : EvalMetrics) :
    (milestoneUpdate r e).saved_score =
      saveScoreDecision r.best_score
        (if saveFinishRateDecision r e = true then e.finish_rate
         else r.best_finish_rate) e := by
  by_cases h1 : saveFinishRateDecision r e = true <;>
    by_cases h2 : saveTimeDecision r.best_time_avg_steps_finish e = true <;>
    simp [milestoneUpdate, h1, h2]

/-- C5 (amended): the best-score record is replaced exactly when no prior
record exists, or the new average score exceeds the stored best by more
than the minimum margin, or the new average score exceeds the stored best
while the new finish rate strictly exceeds the best-finish-rate *record's
value as it stands after the same milestone's finish-rate update*.  The
decision is therefore not independent of the other records: whenever the
best-finish-rate record was updated at the same milestone, the third
disjunct cannot fire. -/
theorem best_score_acceptance_characterization (r : BestRecords)
    (e : EvalMetrics) :
    ((milestoneUpdate r e).saved_score = true ↔
      (r.best_score ≤ -(10 ^ 17) ∨
       e.avg_score > r.best_score + SCORE_MIN_IMPROVEMENT ∨
       (e.avg_score > r.best_score ∧
        e.finish_rate > (if saveFinishRateDecision r e = true then e.finish_rate
                         else r.best_finish_rate)))) ∧
    ((milestoneUpdate r e).saved_finish_rate = true →
      ((milestoneUpdate r e).saved_score = true ↔
        (r.best_score ≤ -(10 ^ 17) ∨
         e.avg_score > r.best_score + SCORE_MIN_IMPROVEMENT))) := by
  have h := milestoneUpdate_saved_score_eq r e
  constructor
  · rw [h]
    exact saveScoreDecision_iff _ _ e
  · intro hsf
    have hsf' : saveFinishRateDecision r e = true := hsf
    rw [h, if_pos hsf', saveScoreDecision_iff]
    constructor
    · rintro (h1 | h2 | ⟨h3, h4⟩)
      · exact Or.inl h1
      · exact Or.inr h2
      · exact absurd h4 (lt_irrefl _)
    · rintro (h1 | h2)
      · exact Or.inl h1
      · exact Or.inr (Or.inl h2)

/-- C5 witness: at the very first milestone (no prior record) the amended
rule accepts, and so does the code. -/
theorem best_score_acceptance_characterization_witness :
    (milestoneUpdate initBestRecords evalMilestoneA).saved_score = true :=
  (best_score_acceptance_characterization initBestRecords evalMilestoneA).1.mpr
    (Or.inl (by norm_num [initBestRecords]))

/-- C5 counterexample: a concrete pair of milestones at which the claim's
acceptance rule fires — the score improves (300 > 100) and the new finish
rate (9/10) exceeds the finish rate paired with the stored best-score
record (1/2) — yet the code does not replace the best-score record: the
best-finish-rate record was updated earlier in the same milestone, and the
score rule compares against the already-updated variable (9/10 > 9/10
fails).  The decision is thus also not independent of the same-milestone
finish-rate update. -/
theorem best_score_claim_counterexample :
    (milestoneUpdate initBestRecords evalMilestoneA).records.best_score = 100 ∧
    (milestoneUpdate initBestRecords
        evalMilestoneA).records.best_finish_rate = 1 / 2 ∧
    claimedBestScoreAccept true 100 (1 / 2) evalMilestoneB = true ∧
    (milestoneUpdate (milestoneUpdate initBestRecords evalMilestoneA).records
        evalMilestoneB).saved_finish_rate = true ∧
    (milestoneUpdate (milestoneUpdate initBestRecords evalMilestoneA).records
        evalMilestoneB).saved_score = false ∧
    (milestoneUpdate (milestoneUpdate initBestRecords evalMilestoneA).records
        evalMilestoneB).records.best_score = 100 := by
  norm_num [milestoneUpdate, saveFinishRateDecision, saveTimeDecision,
    saveScoreDecision, claimedBestScoreAccept, initBestRecords,
    evalMilestoneA, evalMilestoneB, roundHalfAwayFromZero,
    EVAL_EPISODES, FINISH_RATE_MIN_IMPROVEMENT, SCORE_MIN_IMPROVEMENT]

/-- C6 (code bug): evaluating the learning-rate schedule at the failing
input.  A resumed run starts with LR forced to 1e-4 (racing_trainer.cpp
line 455, `initLRState`); when the next episode finishes a race, the
"first finish" schedule step (line 726) sets LR to 3e-4 — raising the
learning rate above its previous value (while printing "Lowering LR") and
violating the claimed monotone non-increase. -/
theorem lr_first_finish_after_resume_raises :
    (lrEpisodeEnd initLRState true).lr = 3 / 10000 ∧
      initLRState.lr < (lrEpisodeEnd initLRState true).lr := by
  norm_num [lrEpisodeEnd, initLRState]

/-- Helper: every entry of a Q-value row is bounded by the row maximum. -/
theorem le_listMax (l : List ℚ) : ∀ i < l.length, l.getD i 0 ≤ listMax l := by
  induction l with
  | nil => intro i hi; simp at hi
  | cons a rest ih =>
    intro i hi
    cases rest with
    | nil =>
      cases i with
      | zero => rfl
      | succ j =>
        simp only [List.length_cons, List.length_nil] at hi
        omega
    | cons b rs =>
      cases i with
      | zero =>
        simpa only [List.getD_cons_zero, listMax] using le_max_left _ _
      | succ j =>
        have hj : j < (b :: rs).length := by
          simp only [List.length_cons] at hi ⊢
          omega
        calc (a :: b :: rs).getD (j + 1) 0 = (b :: rs).getD j 0 :=
              List.getD_cons_succ
          _ ≤ listMax (b :: rs) := ih j hj
          _ ≤ listMax (a :: b :: rs) := le_max_right _ _

/-- Helper: the arg-max index of a nonempty row is in range. -/
theorem argmaxIdx_lt_length (l : List ℚ) (h : l ≠ []) :
    argmaxIdx l < l.length := by
  induction l with
  | nil => exact absurd rfl h
  | cons a rest ih =>
    cases rest with
    | nil => simp [argmaxIdx]
    | cons b rs =>
      by_cases hlt : a < listMax (b :: rs)
      · have hih := ih (by simp)
        simp only [argmaxIdx, if_pos hlt, List.length_cons]
        simp only [List.length_cons] at hih
        omega
      · simp [argmaxIdx, if_neg hlt]

/-- Helper: the entry under the arg-max index is the row maximum. -/
theorem getD_argmaxIdx (l : List ℚ) (h : l ≠ []) :
    l.getD (argmaxIdx l) 0 = listMax l := by
  induction l with
  | nil => exact absurd rfl h
  | cons a rest ih =>
    cases rest with
    | nil => rfl
    | cons b rs =>
      by_cases hlt : a < listMax (b :: rs)
      · have hmax : listMax (a :: b :: rs) = listMax (b :: rs) := by
          simp only [listMax]
          exact max_eq_right (le_of_lt hlt)
        simp only [argmaxIdx, if_pos hlt, List.getD_cons_succ, hmax]
        exact ih (by simp)
      · have hmax : listMax (a :: b :: rs) = a := by
          simp only [listMax]
          exact max_eq_left (not_lt.mp hlt)
        simp only [argmaxIdx, if_neg hlt, List.getD_cons_zero, hmax]

/-- C1: for every training batch, the bootstrap target is Double-DQN
decoupled — per transition, the selected next action maximizes the *policy*
network's Q-row at the next observation, the value bootstrapped is the
*target* network's entry at that action, the target is
`reward + gamma * target_Q * (1 - done)`, and the loss is the mean-squared
error between this target and the policy network's Q-value at the taken
action. -/
theorem dqn_train_double_dqn_target (B : ℕ) (gamma : ℚ)
    (policyNet targetNet : List ℚ → List ℚ)
    (states : Fin B → List ℚ) (actions : Fin B → ℕ) (rewards : Fin B → ℚ)
    (next_states : Fin B → List ℚ) (dones : Fin B → Bool)
    (hne : ∀ i : Fin B, policyNet (next_states i) ≠ []) :
    ∀ i : Fin B,
      (∀ j < (policyNet (next_states i)).length,
        (policyNet (next_states i)).getD j 0 ≤
          (policyNet (next_states i)).getD
            (argmaxIdx (policyNet (next_states i))) 0) ∧
      argmaxIdx (policyNet (next_states i)) <
        (policyNet (next_states i)).length ∧
      doubleDQNnextQ policyNet targetNet (next_states i) =
        gatherQ (targetNet (next_states i))
          (argmaxIdx (policyNet (next_states i))) ∧
      dqnTrainLoss B gamma policyNet targetNet states actions rewards
          next_states dones =
        (∑ j, (gatherQ (policyNet (states j)) (actions j) -
          (rewards j + gamma * gatherQ (targetNet (next_states j))
              (argmaxIdx (policyNet (next_states j))) *
            (1 - if dones j then 1 else 0))) ^ 2) / (B : ℚ) := by
  intro i
  refine ⟨?_, argmaxIdx_lt_length _ (hne i), rfl, rfl⟩
  intro j hj
  rw [getD_argmaxIdx _ (hne i)]
  exact le_listMax _ j hj

/-- C1 witness: a concrete one-transition batch on which the policy and
target rows disagree about the arg-max (policy row `[0, 1]` selects action
1; target row `[5, 3]` has its own maximum at action 0), showing the
hypotheses are satisfiable. -/
theorem dqn_train_double_dqn_target_witness :
    doubleDQNnextQ (fun _ => [(0 : ℚ), 1]) (fun _ => [(5 : ℚ), 3]) [0] =
      gatherQ ((fun _ => [(5 : ℚ), 3]) [(0 : ℚ)])
        (argmaxIdx ((fun _ => [(0 : ℚ), 1]) [(0 : ℚ)])) := by
  have h := dqn_train_double_dqn_target 1 (99 / 100)
    (fun _ => [(0 : ℚ), 1]) (fun _ => [(5 : ℚ), 3])
    (fun _ => [0]) (fun _ => 0) (fun _ => 0) (fun _ => [0]) (fun _ => false)
    (by intro i; simp) 0
  exact h.2.2.1

/-- Helper: elementwise value of the soft update. -/
theorem soft_update_target_getD (tau : ℚ) (p t : List ℚ) (i : ℕ)
    (hi : i < p.length) (hlen : p.length = t.length) :
    (soft_update_target tau p t).getD i 0 =
      tau * p.getD i 0 + (1 - tau) * t.getD i 0 := by
  induction p generalizing t i with
  | nil => simp at hi
  | cons a ps ih =>
    cases t with
    | nil => simp at hlen
    | cons b ts =>
      cases i with
      | zero => rfl
      | succ j =>
        simp only [soft_update_target, List.zipWith_cons_cons,
          List.getD_cons_succ]
        have hj : j < ps.length := by
          simp only [List.length_cons] at hi
          omega
        have hlen' : ps.length = ts.length := by
          simp only [List.length_cons] at hlen
          omega
        exact ih ts j hj hlen'

/-- C2: after the optimizer step of every `DQN::train` call, each
target-network parameter equals `tau * policy + (1 - tau) * target` with
the fixed `tau = 0.005`, taken at the *post-step* policy parameter and the
*previous* target parameter; the gradient step itself (quantified over as
an arbitrary `optimizerStep`) touches only the policy parameters, so the
target network is never updated by gradients. -/
theorem soft_target_update_after_step (optimizerStep : List ℚ → List ℚ)
    (s : DQNParamState)
    (hlen : (optimizerStep s.policyParams).length = s.targetParams.length) :
    (dqnTrainParamUpdate optimizerStep s).policyParams =
        optimizerStep s.policyParams ∧
    (dqnTrainParamUpdate optimizerStep s).targetParams.length =
        s.targetParams.length ∧
    ∀ i < s.targetParams.length,
      (dqnTrainParamUpdate optimizerStep s).targetParams.getD i 0 =
        TAU * (optimizerStep s.policyParams).getD i 0 +
          (1 - TAU) * s.targetParams.getD i 0 := by
  refine ⟨rfl, ?_, ?_⟩
  · simp [dqnTrainParamUpdate, soft_update_target, hlen]
  · intro i hi
    exact soft_update_target_getD TAU _ _ i (by omega) hlen

/-- C2 witness: one-parameter networks with the identity optimizer step. -/
theorem soft_target_update_after_step_witness :
    (dqnTrainParamUpdate (fun l => l) ⟨[2], [4]⟩).targetParams.getD 0 0 =
      TAU * 2 + (1 - TAU) * 4 := by
  have h := soft_target_update_after_step (fun l => l) ⟨[2], [4]⟩ rfl
  simpa using h.2.2 0 (by norm_num)

/-- Helper: stream length of uniformly shaped weight rows. -/
theorem flatten_rows_length (rows : List (List ℚ)) (inDim : ℕ)
    (h : ∀ r ∈ rows, r.length = inDim) :
    rows.flatten.length = rows.length * inDim := by
  induction rows with
  | nil => simp
  | cons r rs ih =>
    simp only [List.flatten_cons, List.length_append, List.length_cons]
    rw [h r (List.mem_cons_self _ _),
      ih fun x hx => h x (List.mem_cons_of_mem _ hx)]
    ring

/-- Helper: reading back uniformly shaped rows from their stream recovers
them, whatever follows in the stream. -/
theorem splitRows_flatten (rows : List (List ℚ)) (inDim : ℕ) (rest : List ℚ)
    (h : ∀ r ∈ rows, r.length = inDim) :
    splitRows inDim rows.length (rows.flatten ++ rest) = rows := by
  induction rows generalizing rest with
  | nil => rfl
  | cons r rs ih =>
    have hr : r.length = inDim := h r (List.mem_cons_self _ _)
    simp only [List.length_cons, splitRows, List.flatten_cons,
      List.append_assoc]
    rw [List.take_left' hr, List.drop_left' hr,
      ih rest fun x hx => h x (List.mem_cons_of_mem _ hx)]

/-- Helper: a layer's stream has length `layerSize`. -/
theorem flatten_layer_length (l : LinearLayer) (inDim outDim : ℕ)
    (h : l.hasShape inDim outDim) :
    (LinearLayer.flatten l).length = layerSize inDim outDim := by
  obtain ⟨h1, h2, h3⟩ := h
  simp only [LinearLayer.flatten, layerSize, List.length_append,
    flatten_rows_length l.weight inDim h2, h1, h3]

/-- Helper: deserializing a layer from its own stream (followed by anything)
recovers the layer. -/
theorem unflattenLinear_flatten (l : LinearLayer) (inDim outDim : ℕ)
    (rest : List ℚ) (h : l.hasShape inDim outDim) :
    unflattenLinear inDim outDim (LinearLayer.flatten l ++ rest) = l := by
  obtain ⟨h1, h2, h3⟩ := h
  have hwlen : l.weight.flatten.length = outDim * inDim := by
    rw [flatten_rows_length l.weight inDim h2, h1]
  rcases l with ⟨w, b⟩
  simp only [LinearLayer.hasShape] at h1 h2 h3
  simp only [LinearLayer.flatten, unflattenLinear, List.append_assoc,
    LinearLayer.mk.injEq]
  constructor
  · rw [← h1]
    exact splitRows_flatten w inDim (b ++ rest) h2
  · rw [List.drop_left' hwlen, List.take_left' h3]

/-- Helper: deserializing the whole network from its own stream recovers
it. -/
theorem unflattenNet_flatten (S A : ℕ) (n : DQNNet)
    (h : n.wellFormed S A) :
    unflattenNet S A (DQNNet.flatten n) = n := by
  obtain ⟨h1, h2, h3⟩ := h
  have hl1 : (LinearLayer.flatten n.fc1).length = layerSize S 64 :=
    flatten_layer_length _ _ _ h1
  have hl2 : (LinearLayer.flatten n.fc2).length = layerSize 64 64 :=
    flatten_layer_length _ _ _ h2
  rcases n with ⟨l1, l2, l3⟩
  simp only [DQNNet.flatten, unflattenNet, DQNNet.mk.injEq]
  refine ⟨?_, ?_, ?_⟩
  · exact unflattenLinear_flatten l1 S 64 _ h1
  · rw [List.drop_left' hl1]
    exact unflattenLinear_flatten l2 64 64 _ h2
  · rw [List.drop_left' hl1, List.drop_left' hl2]
    have := unflattenLinear_flatten l3 64 A [] h3
    rwa [List.append_nil] at this

/-- C8: saving a model and loading the stream into a freshly constructed
learner of the same dimensions restores exactly the policy network's
parameters — `predict` on the reloaded learner returns the same Q-values as
before saving for every observation — and immediately after `load_model`
the target network's parameters equal the loaded policy network's
parameters (hard copy, never stale weights). -/
theorem save_load_roundtrip (S A : ℕ) (d dFresh : DQNState)
    (h : d.policy_net.wellFormed S A) :
    (DQN.load_model S A dFresh (DQN.save_model d)).policy_net =
        d.policy_net ∧
    (∀ obs, DQN.predict (DQN.load_model S A dFresh (DQN.save_model d)) obs =
        DQN.predict d obs) ∧
    (DQN.load_model S A dFresh (DQN.save_model d)).target_net =
        (DQN.load_model S A dFresh (DQN.save_model d)).policy_net := by
  have hp : (DQN.load_model S A dFresh (DQN.save_model d)).policy_net =
      d.policy_net := unflattenNet_flatten S A d.policy_net h
  refine ⟨hp, ?_, rfl⟩
  intro obs
  unfold DQN.predict
  rw [hp]

/-- C8 witness: the concrete learner `witnessDQN` round-trips through
save/load. -/
theorem save_load_roundtrip_witness :
    (DQN.load_model 1 1 witnessDQN (DQN.save_model witnessDQN)).policy_net =
      witnessNet :=
  (save_load_roundtrip 1 1 witnessDQN witnessDQN
    (by
      simp [DQNNet.wellFormed, LinearLayer.hasShape, witnessDQN, witnessNet,
        List.mem_replicate])).1
